import Mathlib

/-!
Verification of the binaural-sound EEG experiment script
(`binaural_experiment.py`).

The script drives a timed experiment on an Enophone EEG headset:

* `Graph.update` — a timer tick that pulls the latest buffered samples and,
  when more than three seconds of data are available, runs the conditioning
  pipeline (`detect_mains` once per session, then `quality`, `referencing`,
  `signal_filtering`).
* `ExperimentWorker.run` — a background thread that walks the protocol
  (marker 5, relax with marker 1, then for each song: existence check on the
  asset, marker 3, playback, marker 1 pause), with a `finally` block that
  always emits the "Experiment Complete" status and the `finished` signal.
* `ExperimentWindow.experiment_finished` — the `finished` handler: inserts
  marker 6, retrieves and conditions the whole buffer, writes a flat CSV
  export and an MNE FIF export.

The embedding below represents each of these as a pure function producing an
explicit trace of the observable effects (markers inserted, sleeps, status
events, playback, signal emission, conditioning-library calls), translated
directly from the Python source.  External library calls (`enotools`,
`pygame`, BrainFlow, MNE) are treated at their interface boundary: they
appear as trace events or as abstract function parameters, never as stubbed
semantics that a claim depends on.
-/

namespace BinauralExperiment

/-- Module-level configuration globals of the script
(`relax_duration`, `song_duration`, `pause_duration`, `num_songs`,
`sleep_time`, `song_directory`, lines 49-54).  Durations are integers in the
source except `sleep_time = 0.5`, which we carry as a rational. -/
structure Config where
  relax_duration : Int
  song_duration : Int
  pause_duration : Int
  num_songs : Nat
  sleep_time : Rat
  song_directory : String
deriving DecidableEq

/-- The default values of the module-level globals (lines 49-54). -/
def defaultGlobals : Config :=
  { relax_duration := 30
    song_duration := 120
    pause_duration := 30
    num_songs := 5
    sleep_time := (1 : Rat) / 2
    song_directory := "./songs" }

/-- One observable effect of the protocol thread: a marker insertion into the
acquisition stream (`board_shim.insert_marker`), a blocking wait
(`time.sleep`), a status event (`update_message.emit`), an audio playback
(`play_song`, which loads, plays, sleeps for the duration and stops), or the
completion signal (`finished.emit`). -/
inductive Event where
  | insertMarker (code : Int)
  | sleep (seconds : Rat)
  | emitStatus (message : String) (duration : Int)
  | playSong (path : String) (duration : Int)
  | finishedSignal
deriving DecidableEq

/-- Zero-padded three-digit rendering of a natural number, as produced by the
Python format specifier in line 212 (`f-string` with width 3 and fill 0):
numbers with more than three digits print in full. -/
def pad3 (n : Nat) : String :=
  if n < 10 then "00" ++ toString n
  else if n < 100 then "0" ++ toString n
  else toString n

/-- Asset path for the song at zero-based loop index `i`
(line 212: the directory, then "/song", the one-based index zero-padded to
three digits, and the ".mp3" suffix). -/
def songPath (dir : String) (i : Nat) : String :=
  dir ++ "/song" ++ pad3 (i + 1) ++ ".mp3"

/-- Outcome of the `try` body of `ExperimentWorker.run`: either it ran to the
end, or the existence check of line 213 failed and a `FileNotFoundError`
(the spec's `MissingAssetError`) was raised for the named path. -/
inductive RunOutcome where
  | ok
  | missingAsset (path : String)
deriving DecidableEq

/-- The trace of one loop iteration of lines 216-229, for loop index `i`:
status "Song i+1", marker 3, playback, settle sleep, status "Relax",
marker 1, pause sleep, settle sleep. -/
def songIteration (cfg : Config) (i : Nat) : List Event :=
  [ Event.emitStatus ("Song " ++ toString (i + 1)) cfg.song_duration
  , Event.insertMarker 3
  , Event.playSong (songPath cfg.song_directory i) cfg.song_duration
  , Event.sleep cfg.sleep_time
  , Event.emitStatus "Relax" cfg.pause_duration
  , Event.insertMarker 1
  , Event.sleep cfg.pause_duration
  , Event.sleep cfg.sleep_time ]

/-- The `for i in range(num_songs)` loop of lines 211-229.  `env` tells which
file paths exist (`os.path.exists`); `i` is the current loop index and `rem`
the number of iterations left.  Each iteration first resolves the asset path
and checks existence; a missing asset raises, ending the loop with a
`missingAsset` outcome and no further events. -/
def songLoop (cfg : Config) (env : String → Bool) (i : Nat) :
    Nat → List Event × RunOutcome
  | 0 => ([], RunOutcome.ok)
  | rem + 1 =>
    let path := songPath cfg.song_directory i
    if env path then
      let rest := songLoop cfg env (i + 1) rem
      (songIteration cfg i ++ rest.1, rest.2)
    else
      ([], RunOutcome.missingAsset path)

/-- The trace of the `try` body of `ExperimentWorker.run` (lines 196-229):
marker 5, settle sleep, relax status, marker 1, relax sleep, settle sleep,
then the song loop.  All durations are read from the module-level globals
`cfg`, exactly as the source reads the globals rather than the attributes
stored on the worker. -/
def tryBody (cfg : Config) (env : String → Bool) : List Event × RunOutcome :=
  let loop := songLoop cfg env 0 cfg.num_songs
  ( [ Event.insertMarker 5
    , Event.sleep cfg.sleep_time
    , Event.emitStatus "Relax with eyes closed" cfg.relax_duration
    , Event.insertMarker 1
    , Event.sleep cfg.relax_duration
    , Event.sleep cfg.sleep_time ] ++ loop.1
  , loop.2 )

/-- The trace of the `finally` block of lines 235-237: the terminal
"Experiment Complete" status (duration literal 5) and the `finished`
signal.  It runs on both the normal and the exceptional path; the
`except` clause of lines 233-234 only logs. -/
def finallyBlock : List Event :=
  [ Event.emitStatus "Experiment Complete" 5, Event.finishedSignal ]

/-- Full trace of `ExperimentWorker.run` (lines 194-237): the `try` body up
to its normal end or its first raised exception, then — on either path — the
`finally` block. -/
def workerRun (cfg : Config) (env : String → Bool) : List Event :=
  (tryBody cfg env).1 ++ finallyBlock

/-- Outcome of the `try` body of `ExperimentWorker.run`: whether the run was
exception-free or aborted on a missing asset. -/
def workerOutcome (cfg : Config) (env : String → Bool) : RunOutcome :=
  (tryBody cfg env).2

/-- The attributes stored by `ExperimentWorker.__init__` (lines 184-192).
The constructor stores its arguments on `self`; `run` never reads them. -/
structure ExperimentWorker where
  relax_duration : Int
  song_duration : Int
  pause_duration : Int
  num_songs : Nat
  sleep_time : Rat
  song_directory : String
deriving DecidableEq

/-- `ExperimentWorker.run` as a method: the body (lines 194-237) mentions
only the module-level globals (`globals`), never the attributes stored on
`self` by the constructor. -/
def ExperimentWorker.run (globals : Config) (_self : ExperimentWorker)
    (env : String → Bool) : List Event :=
  workerRun globals env

/-- The trace of the effectful prefix of `ExperimentWindow.experiment_finished`
(lines 286-288), run when the `finished` signal fires: marker 6, then a
settle sleep. -/
def experimentFinishedEvents (cfg : Config) : List Event :=
  [ Event.insertMarker 6, Event.sleep cfg.sleep_time ]

/-- Events of one whole run: the worker thread's trace followed by the
`finished` handler's trace (the handler is connected to the `finished`
signal in line 260 and runs after the worker's `finally` block). -/
def sessionEvents (cfg : Config) (env : String → Bool) : List Event :=
  workerRun cfg env ++ experimentFinishedEvents cfg

/-- The marker codes of a trace, in trace order. -/
def markersOf : List Event → List Int
  | [] => []
  | Event.insertMarker c :: rest => c :: markersOf rest
  | _ :: rest => markersOf rest

/-- The marker codes of a trace paired with the time index (position in the
trace) at which each is written, starting from index `i`. -/
def idxMarkersFrom (i : Nat) : List Event → List (Nat × Int)
  | [] => []
  | Event.insertMarker c :: rest => (i, c) :: idxMarkersFrom (i + 1) rest
  | _ :: rest => idxMarkersFrom (i + 1) rest

/-- The marker codes of a trace with their time indices. -/
def idxMarkers (l : List Event) : List (Nat × Int) :=
  idxMarkersFrom 0 l

/-- A status event of the stimulus kind: its message starts with "Song "
(line 216 emits the only such messages). -/
def isStimulusStatus : Event → Bool
  | Event.emitStatus m _ => m.data.take 5 == "Song ".data
  | _ => false

/-- A status event of the relax kind: message "Relax" (line 225) or
"Relax with eyes closed" (line 201). -/
def isRelaxStatus : Event → Bool
  | Event.emitStatus m _ => m == "Relax" || m == "Relax with eyes closed"
  | _ => false

/-- The terminal status event of line 236. -/
def isCompleteStatus : Event → Bool
  | Event.emitStatus m _ => m == "Experiment Complete"
  | _ => false

/-- The `finished` signal emission of line 237. -/
def isFinishedSignal : Event → Bool
  | Event.finishedSignal => true
  | _ => false

/-- A buffer snapshot returned by `get_current_board_data`: the number of
sample columns (its `shape[1]`) together with an abstract content on which
the external `enotools.detect_mains` estimate may depend. -/
structure BufferSnapshot where
  numSamples : Nat
  content : Int
deriving DecidableEq

/-- One call into the external `enotools` conditioning library, in the order
the live-view tick makes them (lines 139-142). -/
inductive CondCall where
  | detectMains
  | quality
  | referencing
  | signalFiltering
deriving DecidableEq

/-- Recognizes the `detect_mains` call. -/
def isDetectMains : CondCall → Bool
  | CondCall.detectMains => true
  | _ => false

/-- The conditioning behavior of `Graph.update` (lines 134-142): `detect`
abstracts `enotools.detect_mains`, `sr` is the board sampling rate and
`mains` the cached estimate (`None` until first computed, line 88).  The
guard of line 137 is `data.shape[1] > 3 * self.sampling_rate`; when it
fails the tick makes no conditioning call.  When it holds, line 138 computes
`detect_mains` only if the cache is still `None`, then quality, referencing
and filtering follow.  Returns the new cache and the ordered list of
conditioning calls made by the tick. -/
def graphUpdate (detect : BufferSnapshot → Int) (sr : Nat)
    (mains : Option Int) (data : BufferSnapshot) :
    Option Int × List CondCall :=
  if 3 * sr < data.numSamples then
    match mains with
    | none =>
      (some (detect data),
        [CondCall.detectMains, CondCall.quality, CondCall.referencing,
          CondCall.signalFiltering])
    | some m =>
      (some m,
        [CondCall.quality, CondCall.referencing, CondCall.signalFiltering])
  else (mains, [])

/-- A whole live-view session: the timer fires `Graph.update` once per
buffer snapshot in `ds`, threading the cached mains estimate, and the
conditioning calls of all ticks are concatenated in order. -/
def graphRunTicks (detect : BufferSnapshot → Int) (sr : Nat) :
    Option Int → List BufferSnapshot → Option Int × List CondCall
  | st, [] => (st, [])
  | st, d :: ds =>
    let step := graphUpdate detect sr st d
    let rest := graphRunTicks detect sr step.1 ds
    (rest.1, step.2 ++ rest.2)

/-- The channel layout of the board as reported by the BrainFlow
introspection calls (`get_eeg_channels`, `get_timestamp_channel`,
`get_marker_channel`, `get_sampling_rate`, `get_eeg_names`). -/
structure BoardLayout where
  eeg_channels : List Nat
  timestamp_channel : Nat
  marker_channel : Nat
  sampling_rate : Nat
  eeg_names : List String
deriving DecidableEq

/-- numpy `astype(int)` on one value: truncation toward zero. -/
def astypeInt (q : Rat) : Int := if 0 ≤ q then ⌊q⌋ else ⌈q⌉

/-- One data row of the flat CSV export (line 308): unix timestamp, its
human-readable rendering, one conditioned value per EEG channel, and the
integer marker code. -/
structure CsvRow where
  unix_ts : Rat
  human_ts : String
  eeg : List Rat
  marker : Int
deriving DecidableEq

/-- The rows produced by Python
`zip(timestamps, human_readable_timestamps, *eeg_data, markers)`
(lines 306-318), where the human-readable timestamps are the `datetime`
rendering `fmt` mapped over the timestamps: the zip stops as soon as any of
the zipped sequences is exhausted. -/
def csvRows (fmt : Rat → String) :
    List Rat → List (List Rat) → List Int → List CsvRow
  | t :: ts, eeg, m :: ms =>
    if eeg.all (fun c => !c.isEmpty) then
      CsvRow.mk t (fmt t) (eeg.map (fun c => c.headD 0)) m ::
        csvRows fmt ts (eeg.map List.tail) ms
    else []
  | _, _, _ => []

/-- The flat tabular export of lines 313-318: the header row followed by the
data rows. -/
structure CsvExport where
  header : List String
  rows : List CsvRow
deriving DecidableEq

/-- The structured MNE container of lines 325-345: the stacked channel data,
the channel types, the channel names and the sampling rate passed to
`mne.create_info`. -/
structure FifExport where
  channel_data : List (List Rat)
  ch_types : List String
  ch_names : List String
  sfreq : Nat
deriving DecidableEq

/-- The export-building part of `ExperimentWindow.experiment_finished`
(lines 300-345), applied to the conditioned session buffer `data` — the
result of `get_board_data` followed by the external `enotools` pipeline of
lines 295-297 — given as its list of channel rows.  Translated directly
from the source: the timestamp, marker and EEG rows are selected by channel
index; the CSV is the header row plus the zip of timestamps, formatted
timestamps, EEG channels and integer-cast markers; the MNE structure stacks
the EEG rows divided by 1000000 (microvolts to volts) on top of the raw
marker row as one extra `stim` channel, with the board sampling rate.
No validation of channel presence or lengths is performed anywhere. -/
def experimentFinishedExports (layout : BoardLayout) (fmt : Rat → String)
    (data : List (List Rat)) : CsvExport × FifExport :=
  let timestamps := data.getD layout.timestamp_channel []
  let markers := (data.getD layout.marker_channel []).map astypeInt
  let eeg_data := layout.eeg_channels.map (fun ch => data.getD ch [])
  let header := ["Unix Timestamp", "Human Readable Timestamp"] ++
    layout.eeg_channels.map (fun ch => "EEG Channel " ++ toString ch) ++ ["Marker"]
  let mne_eeg_data := (layout.eeg_channels.map (fun ch => data.getD ch [])).map
    (fun row => row.map (fun v => v / 1000000))
  let marker_data := data.getD layout.marker_channel []
  ( CsvExport.mk header (csvRows fmt timestamps eeg_data markers)
  , FifExport.mk (mne_eeg_data ++ [marker_data])
      (List.replicate layout.eeg_channels.length "eeg" ++ ["stim"])
      (layout.eeg_names ++ ["stim"])
      layout.sampling_rate )

/-- A small concrete configuration with two songs, used by witnesses. -/
def cfgTwo : Config :=
  { relax_duration := 1
    song_duration := 1
    pause_duration := 1
    num_songs := 2
    sleep_time := (1 : Rat) / 2
    song_directory := "./songs" }

/-- An asset environment in which every file exists. -/
def envAllPresent : String → Bool := fun _ => true

/-- An asset environment in which only the first song file exists. -/
def envFirstOnly : String → Bool := fun p => p == "./songs/song001.mp3"

/-- A concrete board layout used by witnesses: two EEG channels at rows 1
and 2, timestamps at row 0, markers at row 3. -/
def layoutW : BoardLayout :=
  { eeg_channels := [1, 2]
    timestamp_channel := 0
    marker_channel := 3
    sampling_rate := 250
    eeg_names := ["A2", "A1"] }

/-- A concrete timestamp renderer used by witnesses. -/
def fmtW : Rat → String := fun _ => "ts"

/-- A rectangular two-sample buffer for `layoutW`. -/
def dataRect : List (List Rat) := [[10, 11], [1, 2], [3, 4], [7, 0]]

/-- A buffer for `layoutW` whose marker channel is shorter than its EEG
channels. -/
def dataMismatch : List (List Rat) := [[10, 11], [1, 2], [3, 4], [6]]

/-! Basic facts about the helper functions and the trace shape. -/

theorem markersOf_append (l₁ l₂ : List Event) :
    markersOf (l₁ ++ l₂) = markersOf l₁ ++ markersOf l₂ := by
  induction l₁ with
  | nil => rfl
  | cons e rest ih => cases e <;> simp [markersOf, ih]

theorem song_ne_complete (s : String) : ("Song " ++ s) ≠ "Experiment Complete" := by
  intro h
  have h2 := congrArg String.data h
  simp [String.data_append] at h2

theorem song_ne_relax (s : String) : ("Song " ++ s) ≠ "Relax" := by
  intro h
  have h2 := congrArg String.data h
  simp [String.data_append] at h2

theorem song_ne_relax_eyes (s : String) : ("Song " ++ s) ≠ "Relax with eyes closed" := by
  intro h
  have h2 := congrArg String.data h
  simp [String.data_append] at h2

theorem isStimulusStatus_song (s : String) (d : Int) :
    isStimulusStatus (Event.emitStatus ("Song " ++ s) d) = true := by
  show (("Song " ++ s).data.take 5 == "Song ".data) = true
  rw [String.data_append, List.take_left' (by rfl)]
  exact beq_self_eq_true _

theorem isRelaxStatus_song (s : String) (d : Int) :
    isRelaxStatus (Event.emitStatus ("Song " ++ s) d) = false := by
  show (("Song " ++ s == "Relax") || ("Song " ++ s == "Relax with eyes closed")) = false
  rw [beq_eq_false_iff_ne.mpr (song_ne_relax s),
    beq_eq_false_iff_ne.mpr (song_ne_relax_eyes s)]
  rfl

theorem isCompleteStatus_song (s : String) (d : Int) :
    isCompleteStatus (Event.emitStatus ("Song " ++ s) d) = false := by
  show ("Song " ++ s == "Experiment Complete") = false
  exact beq_eq_false_iff_ne.mpr (song_ne_complete s)

/-- Per-iteration classification counts: each song-loop iteration emits one
stimulus status, one relax status, no complete status, no signal, and the
markers 3 then 1. -/
theorem songIteration_counts (cfg : Config) (i : Nat) :
    (songIteration cfg i).countP isStimulusStatus = 1 ∧
    (songIteration cfg i).countP isRelaxStatus = 1 ∧
    (songIteration cfg i).countP isCompleteStatus = 0 ∧
    (songIteration cfg i).countP isFinishedSignal = 0 ∧
    markersOf (songIteration cfg i) = [3, 1] := by
  refine ⟨?_, ?_, ?_, ?_, rfl⟩
  · simp [songIteration, List.countP_cons, isStimulusStatus_song, isStimulusStatus]
  · simp [songIteration, List.countP_cons, isRelaxStatus]
    exact ⟨song_ne_relax _, song_ne_relax_eyes _⟩
  · simp [songIteration, List.countP_cons, isCompleteStatus]
    exact song_ne_complete _
  · simp [songIteration, List.countP_cons, isFinishedSignal]

/-- The song loop never emits the complete status nor the finished signal,
on any path (normal or aborted). -/
theorem songLoop_no_complete_no_finished (cfg : Config) (env : String → Bool) :
    ∀ rem i, (songLoop cfg env i rem).1.countP isCompleteStatus = 0 ∧
      (songLoop cfg env i rem).1.countP isFinishedSignal = 0 := by
  intro rem
  induction rem with
  | zero => intro i; simp [songLoop]
  | succ r ih =>
    intro i
    by_cases henv : env (songPath cfg.song_directory i) = true
    · have hit := songIteration_counts cfg i
      simp [songLoop, henv, List.countP_append, hit.2.2.1, hit.2.2.2.1,
        (ih (i + 1)).1, (ih (i + 1)).2]
    · have henv' : env (songPath cfg.song_directory i) = false := by simpa using henv
      simp [songLoop, henv']

/-- If the song loop runs to its normal end, its markers are exactly the
pair `3, 1` once per iteration. -/
theorem songLoop_ok_markers (cfg : Config) (env : String → Bool) :
    ∀ rem i, (songLoop cfg env i rem).2 = RunOutcome.ok →
      markersOf (songLoop cfg env i rem).1 =
        (List.replicate rem ([3, 1] : List Int)).flatten := by
  intro rem
  induction rem with
  | zero => intro i _; simp [songLoop, markersOf]
  | succ r ih =>
    intro i hok
    by_cases henv : env (songPath cfg.song_directory i) = true
    · have hout : (songLoop cfg env (i + 1) r).2 = RunOutcome.ok := by
        simpa [songLoop, henv] using hok
      have hm := (songIteration_counts cfg i).2.2.2.2
      simp [songLoop, henv, markersOf_append, hm, ih (i + 1) hout,
        List.replicate_succ, List.flatten_cons]
    · have henv' : env (songPath cfg.song_directory i) = false := by simpa using henv
      exact absurd hok (by simp [songLoop, henv'])

/-- If every asset from index `i` on (for `rem` iterations) exists, the song
loop succeeds and emits `rem` stimulus statuses and `rem` relax statuses. -/
theorem songLoop_all_present (cfg : Config) (env : String → Bool) :
    ∀ rem i, (∀ j, j < rem → env (songPath cfg.song_directory (i + j)) = true) →
      (songLoop cfg env i rem).2 = RunOutcome.ok ∧
      (songLoop cfg env i rem).1.countP isStimulusStatus = rem ∧
      (songLoop cfg env i rem).1.countP isRelaxStatus = rem := by
  intro rem
  induction rem with
  | zero => intro i _; simp [songLoop]
  | succ r ih =>
    intro i hall
    have henv : env (songPath cfg.song_directory i) = true := by
      simpa using hall 0 (Nat.succ_pos r)
    have hrest := ih (i + 1) (fun j hj => by
      have := hall (j + 1) (Nat.succ_lt_succ hj)
      simpa [Nat.add_assoc, Nat.add_comm 1 j] using this)
    have hit := songIteration_counts cfg i
    refine ⟨by simp [songLoop, henv, hrest.1], ?_, ?_⟩
    · simp [songLoop, henv, List.countP_append, hit.1, hrest.2.1, Nat.add_comm]
    · simp [songLoop, henv, List.countP_append, hit.2.1, hrest.2.2, Nat.add_comm]

/-- When the asset at loop offset `k` is the first missing one, the song loop
aborts there: the markers written are `k` copies of the pair `3, 1` and the
outcome names the missing path. -/
theorem songLoop_first_missing (cfg : Config) (env : String → Bool) :
    ∀ k i rem, k < rem →
      (∀ j, j < k → env (songPath cfg.song_directory (i + j)) = true) →
      env (songPath cfg.song_directory (i + k)) = false →
      markersOf (songLoop cfg env i rem).1 =
        (List.replicate k ([3, 1] : List Int)).flatten ∧
      (songLoop cfg env i rem).2 =
        RunOutcome.missingAsset (songPath cfg.song_directory (i + k)) := by
  intro k
  induction k with
  | zero =>
    intro i rem hlt _ hmiss
    obtain ⟨r, rfl⟩ := Nat.exists_eq_succ_of_ne_zero (Nat.pos_iff_ne_zero.mp hlt)
    have hmiss0 : env (songPath cfg.song_directory i) = false := by simpa using hmiss
    simp [songLoop, hmiss0, markersOf]
  | succ n ih =>
    intro i rem hlt hbefore hmiss
    obtain ⟨r, rfl⟩ := Nat.exists_eq_succ_of_ne_zero
      (Nat.pos_iff_ne_zero.mp (Nat.lt_of_le_of_lt (Nat.zero_le _) hlt))
    have henv : env (songPath cfg.song_directory i) = true := by
      simpa using hbefore 0 (Nat.succ_pos n)
    have hrec := ih (i + 1) r (Nat.lt_of_succ_lt_succ hlt)
      (fun j hj => by
        have := hbefore (j + 1) (Nat.succ_lt_succ hj)
        simpa [Nat.add_assoc, Nat.add_comm 1 j] using this)
      (by
        have : i + 1 + n = i + (n + 1) := by omega
        rw [this]; exact hmiss)
    have hm := (songIteration_counts cfg i).2.2.2.2
    constructor
    · simp [songLoop, henv, markersOf_append, hm, hrec.1,
        List.replicate_succ, List.flatten_cons]
    · have : i + 1 + n = i + (n + 1) := by omega
      simpa [songLoop, henv, this] using hrec.2

theorem isStimulusStatus_relax_eyes (d : Int) :
    isStimulusStatus (Event.emitStatus "Relax with eyes closed" d) = false := rfl

theorem isStimulusStatus_relax (d : Int) :
    isStimulusStatus (Event.emitStatus "Relax" d) = false := rfl

theorem isStimulusStatus_complete (d : Int) :
    isStimulusStatus (Event.emitStatus "Experiment Complete" d) = false := rfl

theorem isRelaxStatus_relax_eyes (d : Int) :
    isRelaxStatus (Event.emitStatus "Relax with eyes closed" d) = true := rfl

theorem isRelaxStatus_relax (d : Int) :
    isRelaxStatus (Event.emitStatus "Relax" d) = true := rfl

theorem isRelaxStatus_complete (d : Int) :
    isRelaxStatus (Event.emitStatus "Experiment Complete" d) = false := rfl

theorem isCompleteStatus_relax_eyes (d : Int) :
    isCompleteStatus (Event.emitStatus "Relax with eyes closed" d) = false := rfl

theorem isCompleteStatus_relax (d : Int) :
    isCompleteStatus (Event.emitStatus "Relax" d) = false := rfl

theorem isCompleteStatus_complete (d : Int) :
    isCompleteStatus (Event.emitStatus "Experiment Complete" d) = true := rfl

/-! Time-indexed markers. -/

theorem idxMarkersFrom_map_snd (l : List Event) :
    ∀ i, (idxMarkersFrom i l).map Prod.snd = markersOf l := by
  induction l with
  | nil => intro i; rfl
  | cons e rest ih => intro i; cases e <;> simp [idxMarkersFrom, markersOf, ih]

theorem idxMarkersFrom_lower_bound (l : List Event) :
    ∀ i p, p ∈ idxMarkersFrom i l → i ≤ p.1 := by
  induction l with
  | nil => intro i p h; simp [idxMarkersFrom] at h
  | cons e rest ih =>
    intro i p h
    cases e with
    | insertMarker c =>
      rcases (by simpa [idxMarkersFrom] using h) with h1 | h1
      · simp [h1]
      · exact Nat.le_of_succ_le (ih (i + 1) p h1)
    | sleep s => exact Nat.le_of_succ_le (ih (i + 1) p (by simpa [idxMarkersFrom] using h))
    | emitStatus m d => exact Nat.le_of_succ_le (ih (i + 1) p (by simpa [idxMarkersFrom] using h))
    | playSong pa d => exact Nat.le_of_succ_le (ih (i + 1) p (by simpa [idxMarkersFrom] using h))
    | finishedSignal => exact Nat.le_of_succ_le (ih (i + 1) p (by simpa [idxMarkersFrom] using h))

theorem idxMarkersFrom_pairwise (l : List Event) :
    ∀ i, (idxMarkersFrom i l).Pairwise (fun a b => a.1 < b.1) := by
  induction l with
  | nil => intro i; simp [idxMarkersFrom]
  | cons e rest ih =>
    intro i
    cases e with
    | insertMarker c =>
      refine List.Pairwise.cons ?_ (ih (i + 1))
      intro b hb
      exact Nat.lt_of_lt_of_le (Nat.lt_succ_self i) (idxMarkersFrom_lower_bound rest (i + 1) b hb)
    | sleep s => exact ih (i + 1)
    | emitStatus m d => exact ih (i + 1)
    | playSong pa d => exact ih (i + 1)
    | finishedSignal => exact ih (i + 1)

/-! Facts about the live-view tick and the export builder. -/

/-- Once the mains cache holds a value, every further tick leaves it
unchanged and never calls `detect_mains` again. -/
theorem graphRunTicks_cached (detect : BufferSnapshot → Int) (sr : Nat) (m : Int) :
    ∀ ds, (graphRunTicks detect sr (some m) ds).1 = some m ∧
      (graphRunTicks detect sr (some m) ds).2.countP isDetectMains = 0 := by
  intro ds
  induction ds with
  | nil => simp [graphRunTicks]
  | cons d ds ih =>
    by_cases h : 3 * sr < d.numSamples
    · simp [graphRunTicks, graphUpdate, h, List.countP_append, List.countP_cons,
        isDetectMains, ih]
    · simp [graphRunTicks, graphUpdate, h, ih]

theorem getD_zero_headD (c : List Rat) (d : Rat) : c.getD 0 d = c.headD d := by
  cases c <;> rfl

theorem tail_getD (c : List Rat) (j : Nat) (d : Rat) :
    c.tail.getD j d = c.getD (j + 1) d := by
  cases c <;> rfl

/-- On a rectangular buffer the zip builds exactly one row per sample, with
the fields of row `j` taken from column `j` of each channel. -/
theorem csvRows_rect (fmt : Rat → String) :
    ∀ (n : Nat) (ts : List Rat) (eeg : List (List Rat)) (ms : List Int),
      ts.length = n → ms.length = n → (∀ c ∈ eeg, c.length = n) →
      (csvRows fmt ts eeg ms).length = n ∧
      ∀ j, j < n → (csvRows fmt ts eeg ms).get? j =
        some (CsvRow.mk (ts.getD j 0) (fmt (ts.getD j 0))
          (eeg.map (fun c => c.getD j 0)) (ms.getD j 0)) := by
  intro n
  induction n with
  | zero =>
    intro ts eeg ms hts _ _
    obtain rfl := List.length_eq_zero.mp hts
    exact ⟨by cases ms <;> simp [csvRows], fun j hj => absurd hj (Nat.not_lt_zero j)⟩
  | succ n ih =>
    intro ts eeg ms hts hms hr
    obtain ⟨t, ts', rfl⟩ : ∃ t ts', ts = t :: ts' := by
      cases ts with
      | nil => simp at hts
      | cons a b => exact ⟨a, b, rfl⟩
    obtain ⟨m, ms', rfl⟩ : ∃ m ms', ms = m :: ms' := by
      cases ms with
      | nil => simp at hms
      | cons a b => exact ⟨a, b, rfl⟩
    have hall : eeg.all (fun c => !c.isEmpty) = true := by
      rw [List.all_eq_true]
      intro c hc
      have hc' := hr c hc
      cases c with
      | nil => simp at hc'
      | cons x xs => simp
    have htail : ∀ c ∈ eeg.map List.tail, c.length = n := by
      intro c hc
      obtain ⟨c0, hc0, rfl⟩ := List.mem_map.mp hc
      have hc' := hr c0 hc0
      cases c0 with
      | nil => simp at hc'
      | cons x xs => simpa using hc'
    have hrec := ih ts' (eeg.map List.tail) ms' (by simpa using hts)
      (by simpa using hms) htail
    constructor
    · simp [csvRows, hall, hrec.1]
    · intro j hj
      cases j with
      | zero =>
        simp only [csvRows, hall, if_pos, List.get?]
        refine congrArg some ?_
        simp only [List.getD_cons_zero]
        refine congrArg₂ (CsvRow.mk t (fmt t)) ?_ rfl
        exact List.map_congr_left (fun c _ => (getD_zero_headD c 0).symm)
      | succ k =>
        have hk : k < n := Nat.lt_of_succ_lt_succ hj
        have hstep : (csvRows fmt (t :: ts') eeg (m :: ms')).get? (k + 1) =
            (csvRows fmt ts' (eeg.map List.tail) ms').get? k := by
          simp [csvRows, hall]
        rw [hstep, hrec.2 k hk]
        refine congrArg some ?_
        simp only [List.getD_cons_succ]
        refine congrArg₂ (CsvRow.mk _ _) ?_ rfl
        rw [List.map_map]
        exact List.map_congr_left (fun c _ => tail_getD c k 0)

/-- The zip truncates to the shortest channel: with rectangular EEG and
timestamp channels of `n` samples and a marker channel of `m` samples, the
number of rows is `min n m`. -/
theorem csvRows_length_min (fmt : Rat → String) :
    ∀ (ts : List Rat) (eeg : List (List Rat)) (ms : List Int) (n m : Nat),
      ts.length = n → (∀ c ∈ eeg, c.length = n) → ms.length = m →
      (csvRows fmt ts eeg ms).length = min n m := by
  intro ts
  induction ts with
  | nil =>
    intro eeg ms n m hts _ hms
    subst hts
    cases ms <;> simp [csvRows]
  | cons t ts' ih =>
    intro eeg ms n m hts hr hms
    subst hts
    cases ms with
    | nil =>
      subst hms
      simp [csvRows]
    | cons mh ms' =>
      subst hms
      have hall : eeg.all (fun c => !c.isEmpty) = true := by
        rw [List.all_eq_true]
        intro c hc
        have hc' := hr c hc
        cases c with
        | nil => simp at hc'
        | cons x xs => simp
      have htail : ∀ c ∈ eeg.map List.tail, c.length = ts'.length := by
        intro c hc
        obtain ⟨c0, hc0, rfl⟩ := List.mem_map.mp hc
        have hc' := hr c0 hc0
        cases c0 with
        | nil => simp at hc'
        | cons x xs => simpa using hc'
      have hrec := ih (eeg.map List.tail) ms' ts'.length ms'.length rfl htail rfl
      simp [csvRows, hall, hrec, Nat.succ_min_succ]

/-! The claims. -/

/-- C1: for every configuration and every successful (exception-free) run of
the protocol, the sequence of marker codes written to the acquisition stream
is exactly 5, 1, then the pair (3, 1) repeated `num_stimuli` times, then 6,
in that order and strictly increasing in time index. -/
theorem marker_sequence_of_successful_run (cfg : Config) (env : String → Bool)
    (h : workerOutcome cfg env = RunOutcome.ok) :
    (idxMarkers (sessionEvents cfg env)).map Prod.snd =
      [5, 1] ++ (List.replicate cfg.num_songs ([3, 1] : List Int)).flatten ++ [6] ∧
    (idxMarkers (sessionEvents cfg env)).Pairwise (fun a b => a.1 < b.1) := by
  constructor
  · rw [idxMarkers, idxMarkersFrom_map_snd]
    have hloop := songLoop_ok_markers cfg env cfg.num_songs 0 h
    simp [sessionEvents, workerRun, tryBody, finallyBlock, experimentFinishedEvents,
      markersOf_append, markersOf, hloop]
  · exact idxMarkersFrom_pairwise _ 0

/-- Witness for C1: a two-song configuration with every asset present. -/
theorem marker_sequence_of_successful_run_witness :
    workerOutcome cfgTwo envAllPresent = RunOutcome.ok ∧
    ((idxMarkers (sessionEvents cfgTwo envAllPresent)).map Prod.snd =
      [5, 1] ++ (List.replicate cfgTwo.num_songs ([3, 1] : List Int)).flatten ++ [6] ∧
     (idxMarkers (sessionEvents cfgTwo envAllPresent)).Pairwise (fun a b => a.1 < b.1)) :=
  ⟨by decide, marker_sequence_of_successful_run cfgTwo envAllPresent (by decide)⟩

/-- C2: on every execution of the protocol sequencer — normal end or aborted
by a raised exception — the terminal "Experiment Complete" status event is
emitted and the `finished` signal fires, each exactly once, and the
`finally` block is the suffix of the worker trace. -/
theorem complete_status_and_finished_exactly_once (cfg : Config) (env : String → Bool) :
    (sessionEvents cfg env).countP isCompleteStatus = 1 ∧
    (sessionEvents cfg env).countP isFinishedSignal = 1 ∧
    finallyBlock <:+ workerRun cfg env := by
  have hloop := songLoop_no_complete_no_finished cfg env cfg.num_songs 0
  refine ⟨?_, ?_, ⟨(tryBody cfg env).1, rfl⟩⟩
  · simp [sessionEvents, workerRun, tryBody, finallyBlock, experimentFinishedEvents,
      List.countP_append, List.countP_cons, isCompleteStatus_relax_eyes,
      isCompleteStatus_complete, isCompleteStatus, hloop.1]
  · simp [sessionEvents, workerRun, tryBody, finallyBlock, experimentFinishedEvents,
      List.countP_append, List.countP_cons, isFinishedSignal, hloop.2]

/-- C3: if the audio asset for stimulus `i` is the first one missing at
sequence time, the worker raises the missing-asset error (Python
`FileNotFoundError`) before writing any marker for stimulus `i`, performs no
further stimulus or relax phases, and finalization still writes marker 6, so
6 is the final marker even of the aborted run. -/
theorem missing_asset_aborts_but_finalizes (cfg : Config) (env : String → Bool)
    (i : Nat) (hi : i < cfg.num_songs)
    (hbefore : ∀ j, j < i → env (songPath cfg.song_directory j) = true)
    (hmiss : env (songPath cfg.song_directory i) = false) :
    workerOutcome cfg env = RunOutcome.missingAsset (songPath cfg.song_directory i) ∧
    markersOf (sessionEvents cfg env) =
      [5, 1] ++ (List.replicate i ([3, 1] : List Int)).flatten ++ [6] ∧
    (markersOf (sessionEvents cfg env)).getLast? = some 6 := by
  have hfm := songLoop_first_missing cfg env i 0 cfg.num_songs hi
    (fun j hj => by simpa using hbefore j hj) (by simpa using hmiss)
  have hmarks : markersOf (sessionEvents cfg env) =
      [5, 1] ++ (List.replicate i ([3, 1] : List Int)).flatten ++ [6] := by
    simp [sessionEvents, workerRun, tryBody, finallyBlock, experimentFinishedEvents,
      markersOf_append, markersOf, hfm.1]
  refine ⟨?_, hmarks, ?_⟩
  · show (songLoop cfg env 0 cfg.num_songs).2 = _
    rw [hfm.2]
    simp
  · rw [hmarks, show [5, 1] ++ (List.replicate i ([3, 1] : List Int)).flatten ++ [6] =
      ([5, 1] ++ (List.replicate i ([3, 1] : List Int)).flatten) ++ [6] by
        simp [List.append_assoc]]
    exact List.getLast?_concat _

/-- Witness for C3: two songs configured, only the first asset present, so
the run aborts at loop index 1. -/
theorem missing_asset_aborts_but_finalizes_witness :
    (1 < cfgTwo.num_songs ∧
     envFirstOnly (songPath cfgTwo.song_directory 0) = true ∧
     envFirstOnly (songPath cfgTwo.song_directory 1) = false) ∧
    (workerOutcome cfgTwo envFirstOnly =
        RunOutcome.missingAsset (songPath cfgTwo.song_directory 1) ∧
      markersOf (sessionEvents cfgTwo envFirstOnly) =
        [5, 1] ++ (List.replicate 1 ([3, 1] : List Int)).flatten ++ [6] ∧
      (markersOf (sessionEvents cfgTwo envFirstOnly)).getLast? = some 6) :=
  ⟨⟨by decide, by decide, by decide⟩,
    missing_asset_aborts_but_finalizes cfgTwo envFirstOnly 1 (by decide)
      (fun j hj => by
        have hj0 : j = 0 := by omega
        subst hj0
        decide)
      (by decide)⟩

/-- C8: for every `N ≥ 0`, a run with `num_stimuli = N` in which every asset
exists completes without raising the missing-asset error and emits exactly
`N` stimulus-type status events and exactly `N + 1` relax-type status
events. -/
theorem all_assets_present_status_counts (cfg : Config) (env : String → Bool)
    (hall : ∀ j, j < cfg.num_songs → env (songPath cfg.song_directory j) = true) :
    workerOutcome cfg env = RunOutcome.ok ∧
    (workerRun cfg env).countP isStimulusStatus = cfg.num_songs ∧
    (workerRun cfg env).countP isRelaxStatus = cfg.num_songs + 1 := by
  have hsl := songLoop_all_present cfg env cfg.num_songs 0
    (fun j hj => by simpa using hall j hj)
  refine ⟨hsl.1, ?_, ?_⟩
  · simp [workerRun, tryBody, finallyBlock, List.countP_append, List.countP_cons,
      isStimulusStatus_relax_eyes, isStimulusStatus_complete, isStimulusStatus,
      hsl.2.1]
  · simp [workerRun, tryBody, finallyBlock, List.countP_append, List.countP_cons,
      isRelaxStatus_relax_eyes, isRelaxStatus_complete, isRelaxStatus,
      hsl.2.2, Nat.add_comm]

/-- Witness for C8: the two-song configuration with every asset present. -/
theorem all_assets_present_status_counts_witness :
    (envAllPresent (songPath cfgTwo.song_directory 0) = true ∧
     envAllPresent (songPath cfgTwo.song_directory 1) = true) ∧
    (workerOutcome cfgTwo envAllPresent = RunOutcome.ok ∧
      (workerRun cfgTwo envAllPresent).countP isStimulusStatus = cfgTwo.num_songs ∧
      (workerRun cfgTwo envAllPresent).countP isRelaxStatus = cfgTwo.num_songs + 1) :=
  ⟨⟨rfl, rfl⟩,
    all_assets_present_status_counts cfgTwo envAllPresent (fun _ _ => rfl)⟩

/-- C5 counterexample: at sampling rate 250 a pulled buffer of exactly
750 samples holds exactly 3 seconds — not fewer — yet the tick performs no
conditioning calls and leaves the cache empty, refuting the claimed
"otherwise compute mains, quality, reference, filter" branch (the source
guard of line 137 is strict). -/
theorem boundary_three_seconds_tick_is_noop :
    ¬ ((750 : Nat) < 3 * 250) ∧
    (graphUpdate (fun _ => 0) 250 none (BufferSnapshot.mk 750 0)).2 = [] ∧
    (graphUpdate (fun _ => 0) 250 none (BufferSnapshot.mk 750 0)).1 = none :=
  ⟨by decide, rfl, rfl⟩

/-- C5 (amended): a render tick whose pulled buffer holds at most 3 seconds
of samples performs no conditioning calls and leaves the cached mains value
unchanged; a tick with strictly more than 3 seconds of samples computes the
mains estimate only when the cache is empty and then quality, referencing
and filtering, in exactly that order. -/
theorem tick_conditioning_characterization (detect : BufferSnapshot → Int)
    (sr : Nat) (st : Option Int) (data : BufferSnapshot) :
    graphUpdate detect sr st data =
      if 3 * sr < data.numSamples then
        (some (st.getD (detect data)),
          (if st.isNone then [CondCall.detectMains] else []) ++
            [CondCall.quality, CondCall.referencing, CondCall.signalFiltering])
      else (st, []) := by
  cases st <;> by_cases h : 3 * sr < data.numSamples <;> simp [graphUpdate, h]

/-- C9: within one live-view session the mains estimate is computed at most
once: starting from the empty cache of `Graph.__init__`, the whole session
makes at most one `detect_mains` call, and from any tick on which the cache
holds a value the stored value is kept unchanged and `detect_mains` is never
called again. -/
theorem mains_estimate_computed_at_most_once (detect : BufferSnapshot → Int)
    (sr : Nat) (ds : List BufferSnapshot) :
    (graphRunTicks detect sr none ds).2.countP isDetectMains ≤ 1 ∧
    ∀ m ds2, (graphRunTicks detect sr (some m) ds2).1 = some m ∧
      (graphRunTicks detect sr (some m) ds2).2.countP isDetectMains = 0 := by
  refine ⟨?_, fun m ds2 => graphRunTicks_cached detect sr m ds2⟩
  induction ds with
  | nil => simp [graphRunTicks]
  | cons d ds ih =>
    by_cases h : 3 * sr < d.numSamples
    · have hc := graphRunTicks_cached detect sr (detect d) ds
      simp [graphRunTicks, graphUpdate, h, List.countP_append, List.countP_cons,
        isDetectMains, hc.2]
    · simpa [graphRunTicks, graphUpdate, h] using ih

/-- C4 counterexample: on a buffer whose marker channel is shorter than its
EEG channels, finalization raises no error and still produces the flat
export (silently truncated to one row), contradicting the claimed validation
that should withhold the export and raise `ExportIntegrityError`. -/
theorem mismatched_marker_channel_still_exports :
    (dataMismatch.getD layoutW.marker_channel []).length ≠
      (dataMismatch.getD 1 []).length ∧
    (experimentFinishedExports layoutW fmtW dataMismatch).1.rows ≠ [] ∧
    (experimentFinishedExports layoutW fmtW dataMismatch).1.rows.length = 1 := by
  decide

/-- C4 (amended): finalization performs no presence or length validation and
raises nothing: for any buffer whose timestamp and EEG channels hold `n`
samples and whose marker channel holds `m`, the flat export is built
unconditionally with `min n m` rows (Python `zip` truncation). -/
theorem finalize_export_truncates_without_validation (layout : BoardLayout)
    (fmt : Rat → String) (data : List (List Rat)) (n m : Nat)
    (hts : (data.getD layout.timestamp_channel []).length = n)
    (heeg : ∀ ch ∈ layout.eeg_channels, (data.getD ch []).length = n)
    (hmk : (data.getD layout.marker_channel []).length = m) :
    (experimentFinishedExports layout fmt data).1.rows.length = min n m := by
  have h := csvRows_length_min fmt (data.getD layout.timestamp_channel [])
    (layout.eeg_channels.map (fun ch => data.getD ch []))
    ((data.getD layout.marker_channel []).map astypeInt) n m hts
    (fun c hc => by
      obtain ⟨ch, hch, rfl⟩ := List.mem_map.mp hc
      exact heeg ch hch)
    (by simpa using hmk)
  simpa [experimentFinishedExports] using h

/-- Witness for the amended C4: the mismatched concrete buffer has two
timestamp and EEG samples but one marker sample, and the export holds
`min 2 1 = 1` rows. -/
theorem finalize_export_truncates_without_validation_witness :
    ((dataMismatch.getD layoutW.timestamp_channel []).length = 2 ∧
     (∀ ch ∈ layoutW.eeg_channels, (dataMismatch.getD ch []).length = 2) ∧
     (dataMismatch.getD layoutW.marker_channel []).length = 1) ∧
    (experimentFinishedExports layoutW fmtW dataMismatch).1.rows.length = min 2 1 :=
  ⟨⟨rfl, by decide, rfl⟩,
    finalize_export_truncates_without_validation layoutW fmtW dataMismatch 2 1 rfl
      (by decide) rfl⟩

/-- Helper: `getD` through the `astype(int)` map, inside the channel. -/
theorem getD_map_astypeInt (l : List Rat) (j : Nat) (hj : j < l.length) :
    (l.map astypeInt).getD j 0 = astypeInt (l.getD j 0) := by
  induction l generalizing j with
  | nil => simp at hj
  | cons x xs ih =>
    cases j with
    | zero => rfl
    | succ k => simpa using ih k (Nat.lt_of_succ_lt_succ hj)

/-- C6: on a rectangular finalized buffer of `n` samples the flat export is
the header row `[unix, human, EEG Channel ch.., Marker]` followed by exactly
one data row per sample, in acquisition order: row `j` carries the `j`-th
timestamp, its rendering, the `j`-th conditioned value of every EEG channel
and the `j`-th integer marker code. -/
theorem csv_export_structure (layout : BoardLayout) (fmt : Rat → String)
    (data : List (List Rat)) (n : Nat)
    (hts : (data.getD layout.timestamp_channel []).length = n)
    (hmk : (data.getD layout.marker_channel []).length = n)
    (heeg : ∀ ch ∈ layout.eeg_channels, (data.getD ch []).length = n)
    (j : Nat) (hj : j < n) :
    (experimentFinishedExports layout fmt data).1.header =
      ["Unix Timestamp", "Human Readable Timestamp"] ++
        layout.eeg_channels.map (fun ch => "EEG Channel " ++ toString ch) ++
        ["Marker"] ∧
    (experimentFinishedExports layout fmt data).1.rows.length = n ∧
    (experimentFinishedExports layout fmt data).1.rows.get? j =
      some (CsvRow.mk ((data.getD layout.timestamp_channel []).getD j 0)
        (fmt ((data.getD layout.timestamp_channel []).getD j 0))
        (layout.eeg_channels.map (fun ch => (data.getD ch []).getD j 0))
        (astypeInt ((data.getD layout.marker_channel []).getD j 0))) := by
  have hrect := csvRows_rect fmt n (data.getD layout.timestamp_channel [])
    (layout.eeg_channels.map (fun ch => data.getD ch []))
    ((data.getD layout.marker_channel []).map astypeInt) hts
    (by simpa using hmk)
    (fun c hc => by
      obtain ⟨ch, hch, rfl⟩ := List.mem_map.mp hc
      exact heeg ch hch)
  refine ⟨rfl, by simpa [experimentFinishedExports] using hrect.1, ?_⟩
  have h2 := hrect.2 j hj
  show (csvRows fmt (data.getD layout.timestamp_channel [])
      (layout.eeg_channels.map (fun ch => data.getD ch []))
      ((data.getD layout.marker_channel []).map astypeInt)).get? j = _
  rw [h2]
  refine congrArg some ?_
  refine congrArg₂ (CsvRow.mk _ _) ?_ ?_
  · rw [List.map_map]
    rfl
  · exact getD_map_astypeInt _ j (by rw [hmk]; exact hj)

/-- Witness for C6: the rectangular two-sample buffer, row index 1. -/
theorem csv_export_structure_witness :
    ((dataRect.getD layoutW.timestamp_channel []).length = 2 ∧
     (dataRect.getD layoutW.marker_channel []).length = 2 ∧
     (∀ ch ∈ layoutW.eeg_channels, (dataRect.getD ch []).length = 2) ∧
     1 < 2) ∧
    ((experimentFinishedExports layoutW fmtW dataRect).1.header =
      ["Unix Timestamp", "Human Readable Timestamp"] ++
        layoutW.eeg_channels.map (fun ch => "EEG Channel " ++ toString ch) ++
        ["Marker"] ∧
     (experimentFinishedExports layoutW fmtW dataRect).1.rows.length = 2 ∧
     (experimentFinishedExports layoutW fmtW dataRect).1.rows.get? 1 =
      some (CsvRow.mk ((dataRect.getD layoutW.timestamp_channel []).getD 1 0)
        (fmtW ((dataRect.getD layoutW.timestamp_channel []).getD 1 0))
        (layoutW.eeg_channels.map (fun ch => (dataRect.getD ch []).getD 1 0))
        (astypeInt ((dataRect.getD layoutW.marker_channel []).getD 1 0)))) :=
  ⟨⟨rfl, rfl, by decide, by decide⟩,
    csv_export_structure layoutW fmtW dataRect 2 rfl rfl (by decide) 1 (by decide)⟩

/-- C7: the structured container export carries the EEG channels rescaled
from microvolts to volts (every value divided by 1000000), exactly one
auxiliary `stim` channel — placed last — holding the unscaled marker
channel, and the driver's native sampling rate. -/
theorem fif_export_structure (layout : BoardLayout) (fmt : Rat → String)
    (data : List (List Rat)) (i : Nat) (hi : i < layout.eeg_channels.length) :
    (experimentFinishedExports layout fmt data).2.sfreq = layout.sampling_rate ∧
    (experimentFinishedExports layout fmt data).2.channel_data.length =
      layout.eeg_channels.length + 1 ∧
    (experimentFinishedExports layout fmt data).2.channel_data.get? i =
      some ((data.getD (layout.eeg_channels.getD i 0) []).map
        (fun v => v / 1000000)) ∧
    (experimentFinishedExports layout fmt data).2.channel_data.getLast? =
      some (data.getD layout.marker_channel []) ∧
    (experimentFinishedExports layout fmt data).2.ch_types =
      List.replicate layout.eeg_channels.length "eeg" ++ ["stim"] ∧
    (experimentFinishedExports layout fmt data).2.ch_types.countP
      (fun t => t == "stim") = 1 ∧
    (experimentFinishedExports layout fmt data).2.ch_names =
      layout.eeg_names ++ ["stim"] := by
  have hne : (("eeg" : String) == "stim") = false := by decide
  refine ⟨rfl, by simp [experimentFinishedExports], ?_, ?_, rfl, ?_, rfl⟩
  · show (((layout.eeg_channels.map (fun ch => data.getD ch [])).map
        (fun (row : List Rat) => row.map (fun v => v / 1000000))) ++
        [data.getD layout.marker_channel []]).get? i = _
    rw [List.get?_append (by simpa using hi), List.get?_map, List.get?_map,
      List.get?_eq_get hi, List.getD_eq_get layout.eeg_channels 0 hi]
    rfl
  · show (((layout.eeg_channels.map (fun ch => data.getD ch [])).map
        (fun (row : List Rat) => row.map (fun v => v / 1000000))) ++
        [data.getD layout.marker_channel []]).getLast? = _
    exact List.getLast?_concat _
  · show (List.replicate layout.eeg_channels.length "eeg" ++
        ["stim"]).countP (fun t => t == "stim") = 1
    simp [List.countP_append, List.countP_replicate, List.countP_cons, hne]

/-- Witness for C7: the concrete layout and rectangular buffer, channel 0. -/
theorem fif_export_structure_witness :
    0 < layoutW.eeg_channels.length ∧
    ((experimentFinishedExports layoutW fmtW dataRect).2.sfreq =
        layoutW.sampling_rate ∧
     (experimentFinishedExports layoutW fmtW dataRect).2.channel_data.length =
        layoutW.eeg_channels.length + 1 ∧
     (experimentFinishedExports layoutW fmtW dataRect).2.channel_data.get? 0 =
        some ((dataRect.getD (layoutW.eeg_channels.getD 0 0) []).map
          (fun v => v / 1000000)) ∧
     (experimentFinishedExports layoutW fmtW dataRect).2.channel_data.getLast? =
        some (dataRect.getD layoutW.marker_channel []) ∧
     (experimentFinishedExports layoutW fmtW dataRect).2.ch_types =
        List.replicate layoutW.eeg_channels.length "eeg" ++ ["stim"] ∧
     (experimentFinishedExports layoutW fmtW dataRect).2.ch_types.countP
        (fun t => t == "stim") = 1 ∧
     (experimentFinishedExports layoutW fmtW dataRect).2.ch_names =
        layoutW.eeg_names ++ ["stim"]) :=
  ⟨by decide, fif_export_structure layoutW fmtW dataRect 0 (by decide)⟩

/-- C10: the sequence executed by `ExperimentWorker.run` is independent of
the constructor arguments stored on the worker: two workers constructed with
different attribute values but the same module-level globals produce
identical traces, because `run` reads the module-level globals. -/
theorem run_trace_independent_of_constructor_args (globals : Config)
    (w1 w2 : ExperimentWorker) (env : String → Bool) :
    ExperimentWorker.run globals w1 env = ExperimentWorker.run globals w2 env := rfl

end BinauralExperiment
